import Mathlib

/-!
Shallow embedding of the CPU hotplug control program (src/src/main.rs) and
proofs about its topology model, selection logic, transition executor,
sampling and decision cycle.

Modelling conventions:
* Rust `usize`/`u64` counters are modelled as `Nat` (no arithmetic in the
  program can overflow on the values involved: ids and idle-time sums are
  only compared and saturating-subtracted).
* Rust `f64` percentages are modelled as `ℚ`; every float expression the
  program evaluates on the claims' inputs is exact.
* The `HashMap<usize, CpuInfo>` is modelled as a `List CpuInfo` (iteration
  order of the map is arbitrary, so theorems quantify over the list);
  `get`/`get_mut` become lookup/update by id.
* The sysfs hierarchy is a `Hw` record of pure functions: whether files
  exist, what reads return (`Except Unit _` for fallible reads) and whether
  writes succeed.  Stateful functions return their updated state, the list
  of `write_online` requests they issued, and a success flag standing for
  the `io::Result` (`false` = the function returned `Err` via `?`).
-/

namespace CpuOnOff

/-- Mirror of `struct CpuInfo` in main.rs. -/
structure CpuInfo where
  id : Nat
  core_id : Option Nat
  socket_id : Option Nat
  thread_siblings : List Nat
  c0_percentage : ℚ
  online : Bool
  last_total_idle_time : Nat
  idle_states : List String
deriving Repr, DecidableEq

/-- Mirror of `struct SystemTopology` (the `last_update : Instant` field is
replaced by passing each cycle's measured interval explicitly). -/
structure SystemTopology where
  cpus : List CpuInfo
  sockets : List (Nat × List Nat)
  cpu0_socket : Option Nat
deriving Repr, DecidableEq

/-- The sysfs-like hardware interface consumed by the program.  Reads that
can fail with `io::Error` are `Except Unit _`. -/
structure Hw where
  /-- result of `fs::read_dir(CPU_DIR)`: the entry names, or an io error. -/
  dirEntries : Except Unit (List String)
  /-- `topology/core_id`, already read-and-parsed (`.ok().and_then(parse)`). -/
  coreId : Nat → Option Nat
  /-- `topology/physical_package_id`, read-and-parsed. -/
  socketId : Nat → Option Nat
  /-- raw contents of `topology/thread_siblings_list`. -/
  siblingsFile : Nat → Except Unit String
  /-- does `cpuN/online` exist? -/
  onlineFileExists : Nat → Bool
  /-- raw contents of `cpuN/online`. -/
  onlineFile : Nat → Except Unit String
  /-- entry names of `cpuN/cpuidle`, or an error. -/
  cpuidleEntries : Nat → Except Unit (List String)
  /-- does `cpuN/cpuidle/<state>` exist? -/
  stateDirExists : Nat → String → Bool
  /-- `cpuN/cpuidle/<state>/time`, read-and-parsed (`u64`); an unparsable
  or unreadable file is an error. -/
  idleTimeFile : Nat → String → Except Unit Nat
  /-- does `fs::write(cpuN/online, v)` succeed? (`true` = `Ok`). -/
  writeOnline : Nat → Bool → Bool

/-- `str::parse::<usize>`: optional leading `+`, then one or more ASCII
digits (the usize overflow check is irrelevant at the ids involved). -/
def parse_usize (s : String) : Option Nat :=
  let t := if s.startsWith "+" then s.drop 1 else s
  if t.length = 0 then none
  else if t.all Char.isDigit then
    some (t.foldl (fun n c => 10 * n + (c.toNat - 48)) 0)
  else none

/-- A directory entry names a CPU iff it is `cpu` followed by a parsable
number: `cpu_name.starts_with("cpu") && cpu_name[3..].parse::<usize>().is_ok()`. -/
def cpu_id_of_entry (name : String) : Option Nat :=
  if name.startsWith "cpu" then parse_usize (name.drop 3) else none

/-- `self.cpus.get(&id)` on the modelled map. -/
def findCpu (cpus : List CpuInfo) (id : Nat) : Option CpuInfo :=
  cpus.find? (fun c => c.id == id)

/-- `self.cpus.get_mut(&id)` followed by `cpu.online = b` (a no-op when the
id is absent, as in the code's `if let Some(cpu)`). -/
def setOnline (cpus : List CpuInfo) (id : Nat) (b : Bool) : List CpuInfo :=
  cpus.map (fun c => if c.id == id then { c with online := b } else c)

/-- `Iterator::max_by_key(|cpu| cpu.id)`: `none` on an empty list, else the
element with the greatest id, the later one winning ties. -/
def max_by_id : List CpuInfo → Option CpuInfo
  | [] => none
  | c :: rest =>
    match max_by_id rest with
    | none => some c
    | some m => if c.id ≤ m.id then some m else some c

/-- `Iterator::min_by_key(|cpu| cpu.id)`: `none` on an empty list, else the
element with the least id, the earlier one winning ties. -/
def min_by_id : List CpuInfo → Option CpuInfo
  | [] => none
  | c :: rest =>
    match min_by_id rest with
    | none => some c
    | some m => if m.id < c.id then some m else some c

/-- Mirror of `SystemTopology::select_cpu_to_offline`. -/
def select_cpu_to_offline (t : SystemTopology) : Option (List Nat) :=
  let online_cpus := t.cpus.filter (fun c => c.online && c.id != 0)
  if online_cpus.length ≤ 1 then none
  else
    (max_by_id online_cpus).map (fun cpu =>
      cpu.thread_siblings.filter (fun sibling_id =>
        match findCpu t.cpus sibling_id with
        | some sibling => sibling.online
        | none => false))

/-- Mirror of `SystemTopology::select_cpu_to_online`. -/
def select_cpu_to_online (t : SystemTopology) : Option (List Nat) :=
  let offline_cpus := t.cpus.filter (fun c => !c.online && c.id != 0)
  if offline_cpus.length = 0 then none
  else
    (min_by_id offline_cpus).map (fun cpu =>
      cpu.thread_siblings.filter (fun sibling_id =>
        match findCpu t.cpus sibling_id with
        | some sibling => !sibling.online
        | none => false))

/-! ### State transition executor -/

/-- Loop body of `SystemTopology::offline_cpu_group` over `self.cpus`.
Returns the updated cpu list, the trace of `write_online` requests that were
issued (value written paired with the id), and `true` for `Ok(())` /
`false` when the `fs::write(..)?` failed and the function returned early. -/
def offline_cpus_go (hw : Hw) (cpus : List CpuInfo) :
    List Nat → List CpuInfo × List (Nat × Bool) × Bool
  | [] => (cpus, [], true)
  | id :: rest =>
    if id = 0 then offline_cpus_go hw cpus rest  -- Never offline CPU0
    else if hw.onlineFileExists id then
      if hw.writeOnline id false then
        let r := offline_cpus_go hw (setOnline cpus id false) rest
        (r.1, (id, false) :: r.2.1, r.2.2)
      else (cpus, [(id, false)], false)  -- `?` aborts: no mutation, Err out
    else offline_cpus_go hw cpus rest  -- "'online' file does not exist"

/-- Mirror of `SystemTopology::offline_cpu_group`. -/
def offline_cpu_group (hw : Hw) (t : SystemTopology) (cpu_ids : List Nat) :
    SystemTopology × List (Nat × Bool) × Bool :=
  let r := offline_cpus_go hw t.cpus cpu_ids
  ({ t with cpus := r.1 }, r.2)

/-- Loop body of `SystemTopology::online_cpu_group`. -/
def online_cpus_go (hw : Hw) (cpus : List CpuInfo) :
    List Nat → List CpuInfo × List (Nat × Bool) × Bool
  | [] => (cpus, [], true)
  | id :: rest =>
    if id = 0 then online_cpus_go hw cpus rest  -- CPU0 is always online
    else if hw.onlineFileExists id then
      if hw.writeOnline id true then
        let r := online_cpus_go hw (setOnline cpus id true) rest
        (r.1, (id, true) :: r.2.1, r.2.2)
      else (cpus, [(id, true)], false)
    else online_cpus_go hw cpus rest

/-- Mirror of `SystemTopology::online_cpu_group`. -/
def online_cpu_group (hw : Hw) (t : SystemTopology) (cpu_ids : List Nat) :
    SystemTopology × List (Nat × Bool) × Bool :=
  let r := online_cpus_go hw t.cpus cpu_ids
  ({ t with cpus := r.1 }, r.2)

/-- Loop body of the free function `online_all_cpus` over the directory
entries; it touches no topology, only the hardware.  Same trace/flag
convention as the group operations. -/
def online_all_go (hw : Hw) : List String → List (Nat × Bool) × Bool
  | [] => ([], true)
  | name :: rest =>
    match cpu_id_of_entry name with
    | none => online_all_go hw rest
    | some id =>
      if id = 0 then online_all_go hw rest  -- Skip CPU0: always online
      else if hw.onlineFileExists id then
        if hw.writeOnline id true then
          let r := online_all_go hw rest
          ((id, true) :: r.1, r.2)
        else ([(id, true)], false)
      else online_all_go hw rest

/-- Mirror of `online_all_cpus`: enumerate the cpu directory (an unreadable
directory is an error) and force every non-boot CPU online. -/
def online_all_cpus (hw : Hw) : Except Unit (List (Nat × Bool) × Bool) :=
  match hw.dirEntries with
  | .error e => .error e
  | .ok entries => .ok (online_all_go hw entries)

/-! ### Topology discovery -/

/-- Mirror of `SystemTopology::read_thread_siblings`: split the file on
commas, trim, keep what parses; an unreadable file yields `[]`. -/
def read_thread_siblings (hw : Hw) (id : Nat) : List Nat :=
  match hw.siblingsFile id with
  | .ok s => (s.splitOn ",").filterMap (fun n => parse_usize n.trim)
  | .error _ => []

/-- Mirror of `SystemTopology::is_cpu_online`: absent file means online;
otherwise online iff the trimmed contents are `"1"` (unreadable ⇒ false). -/
def is_cpu_online (hw : Hw) (id : Nat) : Bool :=
  if hw.onlineFileExists id then
    match hw.onlineFile id with
    | .ok content => content.trim == "1"
    | .error _ => false
  else true

/-- Mirror of `SystemTopology::get_idle_states`: the `state*` entries of the
cpuidle directory, sorted; an unreadable directory yields `[]`. -/
def get_idle_states (hw : Hw) (id : Nat) : List String :=
  match hw.cpuidleEntries id with
  | .ok entries => (entries.filter (fun n => n.startsWith "state")).mergeSort
      (fun a b => a ≤ b)
  | .error _ => []

/-- `HashMap::insert` on the modelled cpu map: replace the record with the
same id if present, else append. -/
def insertCpu (cpus : List CpuInfo) (c : CpuInfo) : List CpuInfo :=
  if cpus.any (fun d => d.id == c.id) then
    cpus.map (fun d => if d.id == c.id then c else d)
  else cpus ++ [c]

/-- `sockets.entry(socket_id).or_default().push(id)`. -/
def socketsInsert (sockets : List (Nat × List Nat)) (sid id : Nat) :
    List (Nat × List Nat) :=
  if sockets.any (fun p => p.1 == sid) then
    sockets.map (fun p => if p.1 == sid then (p.1, p.2 ++ [id]) else p)
  else sockets ++ [(sid, [id])]

/-- Accumulator of `SystemTopology::new`'s directory loop:
`(cpu0_socket, cpus, sockets)`. -/
abbrev DiscoverState := Option Nat × List CpuInfo × List (Nat × List Nat)

/-- Mirror of `SystemTopology::process_cpu` for one directory entry. -/
def process_cpu (hw : Hw) (st : DiscoverState) (name : String) : DiscoverState :=
  match cpu_id_of_entry name with
  | none => st
  | some id =>
    let core_id := hw.coreId id
    let socket_id := hw.socketId id
    let thread_siblings := read_thread_siblings hw id
    let online := is_cpu_online hw id
    let idle_states := get_idle_states hw id
    let cpu0_socket := if id = 0 then socket_id else st.1
    let cpu_info : CpuInfo :=
      { id := id, core_id := core_id, socket_id := socket_id,
        thread_siblings := thread_siblings, c0_percentage := 0,
        online := online, last_total_idle_time := 0,
        idle_states := idle_states }
    let cpus := insertCpu st.2.1 cpu_info
    let sockets :=
      match socket_id with
      | some sid => socketsInsert st.2.2 sid id
      | none => st.2.2
    (cpu0_socket, cpus, sockets)

/-- Mirror of `SystemTopology::new`: fails exactly when reading the cpu
directory fails; otherwise folds `process_cpu` over the entries. -/
def topology_new (hw : Hw) : Except Unit SystemTopology :=
  match hw.dirEntries with
  | .error e => .error e
  | .ok entries =>
    let st := entries.foldl (process_cpu hw) (none, [], [])
    .ok { cpus := st.2.1, sockets := st.2.2, cpu0_socket := st.1 }

/-! ### Load estimation (C0 sampling) -/

/-- The summation loop of `update_c0_single`: add up the `time` files of the
CPU's recorded idle states, skipping states whose directory is missing; the
first unreadable/unparsable file aborts with the error (`?`). -/
def total_idle_time (hw : Hw) (id : Nat) : List String → Except Unit Nat
  | [] => .ok 0
  | state :: rest =>
    if hw.stateDirExists id state then
      match hw.idleTimeFile id state with
      | .error e => .error e
      | .ok time =>
        match total_idle_time hw id rest with
        | .error e => .error e
        | .ok total => .ok (time + total)
    else total_idle_time hw id rest

/-- `f64::clamp(lo, hi)` (NaN never arises on the inputs we model). -/
def ratClamp (x lo hi : ℚ) : ℚ :=
  if x < lo then lo else if hi < x then hi else x

/-- Mirror of `SystemTopology::update_c0_single`.  `interval` is
`actual_interval.as_micros()`.  On a read failure the record is unchanged
(the Rust mutations all happen after the read loop).  `Nat` subtraction is
exactly `u64::saturating_sub`. -/
def update_c0_single (hw : Hw) (interval : Nat) (cpu : CpuInfo) :
    Except Unit CpuInfo :=
  match total_idle_time hw cpu.id cpu.idle_states with
  | .error e => .error e
  | .ok total =>
    let idle_time_delta : Nat := total - cpu.last_total_idle_time
    let pct : ℚ := 100 * (1 - ((idle_time_delta : ℚ) / (interval : ℚ)))
    .ok { cpu with
            last_total_idle_time := total,
            c0_percentage := ratClamp pct 0 100 }

/-- Mirror of `SystemTopology::update_c0_percentages`: refresh every online
CPU in iteration order; the first failing CPU stops the loop (`?`), leaving
it and every CPU after it untouched.  The Bool is `true` for `Ok(())`. -/
def update_c0_percentages (hw : Hw) (interval : Nat) :
    List CpuInfo → List CpuInfo × Bool
  | [] => ([], true)
  | cpu :: rest =>
    if cpu.online then
      match update_c0_single hw interval cpu with
      | .error _ => (cpu :: rest, false)
      | .ok cpu' =>
        let r := update_c0_percentages hw interval rest
        (cpu' :: r.1, r.2)
    else
      let r := update_c0_percentages hw interval rest
      (cpu :: r.1, r.2)

/-! ### Decision cycle (`cpu_manager` loop body) -/

/-- `avg_c0` as computed in `cpu_manager`: mean `c0_percentage` over online
CPUs, `0` when none is online. -/
def avg_c0 (cpus : List CpuInfo) : ℚ :=
  let online := cpus.filter (fun cpu => cpu.online)
  if 0 < online.length then
    (online.map (fun cpu => cpu.c0_percentage)).sum / (online.length : ℚ)
  else 0

/-- The outcome `cpu_manager` reports for one cycle's decision step. -/
inductive Decision
  | onlined : List Nat → Decision
  | atMaximum : Decision
  | offlined : List Nat → Decision
  | atMinimum : Decision
  | noAction : Decision
deriving Repr, DecidableEq

/-- The threshold-comparison part of the `cpu_manager` loop body, after
sampling succeeded: compare `avg_c0` against the thresholds, consult the
selection logic and apply the chosen group (whose own `io::Result` is
discarded by `let _ = ...`).  Returns the new topology, the writes issued,
and the decision. -/
def decide_and_act (upper lower : Nat) (hw : Hw) (t : SystemTopology) :
    SystemTopology × List (Nat × Bool) × Decision :=
  let avg := avg_c0 t.cpus
  if (upper : ℚ) < avg then
    match select_cpu_to_online t with
    | some core_to_online =>
      let r := online_cpu_group hw t core_to_online
      (r.1, r.2.1, .onlined core_to_online)
    | none => (t, [], .atMaximum)  -- "already at maximum"
  else if avg < (lower : ℚ) then
    match select_cpu_to_offline t with
    | some core_to_offline =>
      let r := offline_cpu_group hw t core_to_offline
      (r.1, r.2.1, .offlined core_to_offline)
    | none => (t, [], .atMinimum)  -- "already at minimum"
  else (t, [], .noAction)  -- "Load is optimal"

/-- One iteration of the `cpu_manager` loop (HUP pause not raised):
`topology.update_c0_percentages().await?` then the decision step.  An
`Err` from sampling propagates out of `cpu_manager` (ending the control
loop), modelled as `.error ()` in the decision slot; the partially
updated topology is kept. -/
def cpu_manager_cycle (upper lower : Nat) (hw : Hw) (interval : Nat)
    (t : SystemTopology) :
    SystemTopology × List (Nat × Bool) × Except Unit Decision :=
  let u := update_c0_percentages hw interval t.cpus
  let t1 : SystemTopology := { t with cpus := u.1 }
  if u.2 then
    let r := decide_and_act upper lower hw t1
    (r.1, r.2.1, .ok r.2.2)
  else (t1, [], .error ())

/-! ### Reachability -/

/-- The boot-CPU invariant on a topology state: every record with id 0 is
online. -/
def boot_online (t : SystemTopology) : Prop :=
  ∀ c ∈ t.cpus, c.id = 0 → c.online = true

/-- States reachable from `t0` by the program's topology-mutating
operations; each step may see fresh hardware responses and a fresh measured
interval. -/
inductive Reachable (t0 : SystemTopology) : SystemTopology → Prop
  | refl : Reachable t0 t0
  | offline (hw : Hw) (ids : List Nat) {t : SystemTopology} :
      Reachable t0 t → Reachable t0 (offline_cpu_group hw t ids).1
  | online (hw : Hw) (ids : List Nat) {t : SystemTopology} :
      Reachable t0 t → Reachable t0 (online_cpu_group hw t ids).1
  | sample (hw : Hw) (interval : Nat) {t : SystemTopology} :
      Reachable t0 t →
      Reachable t0 { t with cpus := (update_c0_percentages hw interval t.cpus).1 }
  | cycle (upper lower : Nat) (hw : Hw) (interval : Nat) {t : SystemTopology} :
      Reachable t0 t →
      Reachable t0 (cpu_manager_cycle upper lower hw interval t).1

/-! ### Concrete example states used to instantiate the theorems -/

/-- An example CPU record. -/
def exCpu (id : Nat) (sib : List Nat) (onl : Bool) (last : Nat) (c0 : ℚ)
    (states : List String) : CpuInfo :=
  { id := id, core_id := some id, socket_id := some 0,
    thread_siblings := sib, c0_percentage := c0, online := onl,
    last_total_idle_time := last, idle_states := states }

/-- Four CPUs in two sibling pairs, all online. -/
def exTopo4 : SystemTopology :=
  { cpus := [exCpu 0 [0, 1] true 0 0 [], exCpu 1 [0, 1] true 0 0 [],
             exCpu 2 [2, 3] true 0 0 [], exCpu 3 [2, 3] true 0 0 []],
    sockets := [(0, [0, 1, 2, 3])], cpu0_socket := some 0 }

/-- Same four-CPU topology with the pair {2,3} offline. -/
def exTopo4off : SystemTopology :=
  { cpus := [exCpu 0 [0, 1] true 0 0 [], exCpu 1 [0, 1] true 0 0 [],
             exCpu 2 [2, 3] false 0 0 [], exCpu 3 [2, 3] false 0 0 []],
    sockets := [(0, [0, 1, 2, 3])], cpu0_socket := some 0 }

/-- A hardware interface on which every operation succeeds. -/
def exHwOk : Hw :=
  { dirEntries := .ok ["cpu0", "cpu1", "cpu2", "cpu3"],
    coreId := fun i => some i,
    socketId := fun _ => some 0,
    siblingsFile := fun i => .ok (toString i),
    onlineFileExists := fun i => i != 0,
    onlineFile := fun _ => .ok "1",
    cpuidleEntries := fun _ => .ok ["state0"],
    stateDirExists := fun _ _ => true,
    idleTimeFile := fun _ _ => .ok 700,
    writeOnline := fun _ _ => true }

/-! ### Selection lemmas -/

theorem max_by_id_eq_none {l : List CpuInfo} :
    max_by_id l = none ↔ l = [] := by
  induction l with
  | nil => simp [max_by_id]
  | cons c rest ih =>
    simp only [max_by_id]
    cases h : max_by_id rest with
    | none => simp
    | some m => by_cases hle : c.id ≤ m.id <;> simp [hle]

theorem max_by_id_mem {l : List CpuInfo} {m : CpuInfo} :
    max_by_id l = some m → m ∈ l := by
  induction l with
  | nil => simp [max_by_id]
  | cons c rest ih =>
    simp only [max_by_id]
    cases h : max_by_id rest with
    | none => intro he; simp at he; simp [he]
    | some m' =>
      by_cases hle : c.id ≤ m'.id <;> simp [hle]
      · intro he; exact Or.inr (ih (he ▸ h))
      · intro he; exact Or.inl he.symm

theorem max_by_id_ge {l : List CpuInfo} {m : CpuInfo}
    (hm : max_by_id l = some m) : ∀ c ∈ l, c.id ≤ m.id := by
  induction l generalizing m with
  | nil => simp [max_by_id] at hm
  | cons c rest ih =>
    simp only [max_by_id] at hm
    cases h : max_by_id rest with
    | none =>
      rw [h] at hm; simp at hm
      have hre : rest = [] := max_by_id_eq_none.mp h
      subst hre; simp [hm]
    | some m' =>
      rw [h] at hm
      by_cases hle : c.id ≤ m'.id <;> simp [hle] at hm
      · subst hm
        intro d hd
        rcases List.mem_cons.mp hd with rfl | hd'
        · exact hle
        · exact ih h d hd'
      · subst hm
        intro d hd
        rcases List.mem_cons.mp hd with rfl | hd'
        · exact le_refl _
        · exact le_trans (ih h d hd') (le_of_not_le hle)

theorem min_by_id_eq_none {l : List CpuInfo} :
    min_by_id l = none ↔ l = [] := by
  induction l with
  | nil => simp [min_by_id]
  | cons c rest ih =>
    simp only [min_by_id]
    cases h : min_by_id rest with
    | none => simp
    | some m => by_cases hlt : m.id < c.id <;> simp [hlt]

theorem min_by_id_mem {l : List CpuInfo} {m : CpuInfo} :
    min_by_id l = some m → m ∈ l := by
  induction l with
  | nil => simp [min_by_id]
  | cons c rest ih =>
    simp only [min_by_id]
    cases h : min_by_id rest with
    | none => intro he; simp at he; simp [he]
    | some m' =>
      by_cases hlt : m'.id < c.id <;> simp [hlt]
      · intro he; exact Or.inr (ih (he ▸ h))
      · intro he; exact Or.inl he.symm

theorem min_by_id_le {l : List CpuInfo} {m : CpuInfo}
    (hm : min_by_id l = some m) : ∀ c ∈ l, m.id ≤ c.id := by
  induction l generalizing m with
  | nil => simp [min_by_id] at hm
  | cons c rest ih =>
    simp only [min_by_id] at hm
    cases h : min_by_id rest with
    | none =>
      rw [h] at hm; simp at hm
      have hre : rest = [] := min_by_id_eq_none.mp h
      subst hre; simp [hm]
    | some m' =>
      rw [h] at hm
      by_cases hlt : m'.id < c.id <;> simp [hlt] at hm
      · subst hm
        intro d hd
        rcases List.mem_cons.mp hd with rfl | hd'
        · exact le_of_lt hlt
        · exact ih h d hd'
      · subst hm
        intro d hd
        rcases List.mem_cons.mp hd with rfl | hd'
        · exact le_refl _
        · exact le_trans (le_of_not_lt hlt) (ih h d hd')

/-- C2: offline selection considers the online CPUs other than CPU 0 as
candidates, returns `none` exactly when there are at most one of them, and
otherwise returns the thread siblings of the highest-id candidate filtered
to the currently online CPUs. -/
theorem select_offline_spec (t : SystemTopology) :
    (select_cpu_to_offline t = none ↔
        (t.cpus.filter (fun c => c.online && c.id != 0)).length ≤ 1) ∧
    (∀ g, select_cpu_to_offline t = some g →
      ∃ m, m ∈ t.cpus.filter (fun c => c.online && c.id != 0) ∧
        (∀ c ∈ t.cpus.filter (fun c => c.online && c.id != 0), c.id ≤ m.id) ∧
        g = m.thread_siblings.filter (fun sibling_id =>
              match findCpu t.cpus sibling_id with
              | some s => s.online
              | none => false)) := by
  unfold select_cpu_to_offline
  by_cases hlen : (t.cpus.filter (fun c => c.online && c.id != 0)).length ≤ 1
  · simp [hlen]
  · simp only [hlen, if_false, iff_false]
    constructor
    · cases h : max_by_id (t.cpus.filter (fun c => c.online && c.id != 0)) with
      | none =>
        exfalso
        have := max_by_id_eq_none.mp h
        rw [this] at hlen; simp at hlen
      | some m => simp [h]
    · intro g hg
      cases h : max_by_id (t.cpus.filter (fun c => c.online && c.id != 0)) with
      | none => rw [h] at hg; simp at hg
      | some m =>
        rw [h] at hg
        simp only [Option.map_some', Option.some.injEq] at hg
        exact ⟨m, max_by_id_mem h, max_by_id_ge h, hg.symm⟩

/-- Witness for C2 at the concrete four-CPU topology with pair {2,3}
highest. -/
theorem select_offline_spec_witness :
    ∃ m, m ∈ exTopo4.cpus.filter (fun c => c.online && c.id != 0) ∧
      (∀ c ∈ exTopo4.cpus.filter (fun c => c.online && c.id != 0), c.id ≤ m.id) ∧
      [2, 3] = m.thread_siblings.filter (fun sibling_id =>
            match findCpu exTopo4.cpus sibling_id with
            | some s => s.online
            | none => false) :=
  (select_offline_spec exTopo4).2 [2, 3] (by decide)

/-- C3: online selection considers the offline CPUs other than CPU 0 as
candidates, returns `none` exactly when there is no such candidate, and
otherwise returns the thread siblings of the lowest-id candidate filtered
to the currently offline CPUs. -/
theorem select_online_spec (t : SystemTopology) :
    (select_cpu_to_online t = none ↔
        (t.cpus.filter (fun c => !c.online && c.id != 0)).length = 0) ∧
    (∀ g, select_cpu_to_online t = some g →
      ∃ m, m ∈ t.cpus.filter (fun c => !c.online && c.id != 0) ∧
        (∀ c ∈ t.cpus.filter (fun c => !c.online && c.id != 0), m.id ≤ c.id) ∧
        g = m.thread_siblings.filter (fun sibling_id =>
              match findCpu t.cpus sibling_id with
              | some s => !s.online
              | none => false)) := by
  unfold select_cpu_to_online
  by_cases hlen : (t.cpus.filter (fun c => !c.online && c.id != 0)).length = 0
  · simp [hlen]
  · simp only [hlen, if_false, iff_false]
    constructor
    · cases h : min_by_id (t.cpus.filter (fun c => !c.online && c.id != 0)) with
      | none =>
        exfalso
        have := min_by_id_eq_none.mp h
        rw [this] at hlen; simp at hlen
      | some m => simp [h]
    · intro g hg
      cases h : min_by_id (t.cpus.filter (fun c => !c.online && c.id != 0)) with
      | none => rw [h] at hg; simp at hg
      | some m =>
        rw [h] at hg
        simp only [Option.map_some', Option.some.injEq] at hg
        exact ⟨m, min_by_id_mem h, min_by_id_le h, hg.symm⟩

/-- Witness for C3 at the concrete topology with pair {2,3} offline. -/
theorem select_online_spec_witness :
    ∃ m, m ∈ exTopo4off.cpus.filter (fun c => !c.online && c.id != 0) ∧
      (∀ c ∈ exTopo4off.cpus.filter (fun c => !c.online && c.id != 0), m.id ≤ c.id) ∧
      [2, 3] = m.thread_siblings.filter (fun sibling_id =>
            match findCpu exTopo4off.cpus sibling_id with
            | some s => !s.online
            | none => false) :=
  (select_online_spec exTopo4off).2 [2, 3] (by decide)

/-! ### Hysteresis -/

/-- A single-CPU topology whose aggregate is exactly `c0` (only CPU 0,
online). -/
def exTopo1 (c0 : ℚ) : SystemTopology :=
  { cpus := [exCpu 0 [0] true 0 c0 []],
    sockets := [(0, [0])], cpu0_socket := some 0 }

/-- C4: with thresholds upper=85 and lower=50, an aggregate of exactly 50
or exactly 85 yields NoAction, an aggregate strictly below 50 enters the
offline-selection branch, an aggregate strictly above 85 enters the
online-selection branch, and the three branches are mutually exclusive
(characterised by the three iffs). -/
theorem hysteresis_strict (hw : Hw) (t : SystemTopology) :
    (avg_c0 t.cpus = 50 → (decide_and_act 85 50 hw t).2.2 = .noAction) ∧
    (avg_c0 t.cpus = 85 → (decide_and_act 85 50 hw t).2.2 = .noAction) ∧
    (avg_c0 t.cpus = 499/10 →
      ((∃ g, (decide_and_act 85 50 hw t).2.2 = .offlined g) ∨
        (decide_and_act 85 50 hw t).2.2 = .atMinimum)) ∧
    (avg_c0 t.cpus = 851/10 →
      ((∃ g, (decide_and_act 85 50 hw t).2.2 = .onlined g) ∨
        (decide_and_act 85 50 hw t).2.2 = .atMaximum)) ∧
    (((∃ g, (decide_and_act 85 50 hw t).2.2 = .onlined g) ∨
        (decide_and_act 85 50 hw t).2.2 = .atMaximum) ↔ 85 < avg_c0 t.cpus) ∧
    (((∃ g, (decide_and_act 85 50 hw t).2.2 = .offlined g) ∨
        (decide_and_act 85 50 hw t).2.2 = .atMinimum) ↔ avg_c0 t.cpus < 50) ∧
    ((decide_and_act 85 50 hw t).2.2 = .noAction ↔
      50 ≤ avg_c0 t.cpus ∧ avg_c0 t.cpus ≤ 85) := by
  have hcast85 : ((85 : ℕ) : ℚ) = (85 : ℚ) := by norm_num
  have hcast50 : ((50 : ℕ) : ℚ) = (50 : ℚ) := by norm_num
  obtain ⟨hOn, hOff, hNo⟩ :
      (((∃ g, (decide_and_act 85 50 hw t).2.2 = .onlined g) ∨
          (decide_and_act 85 50 hw t).2.2 = .atMaximum) ↔ 85 < avg_c0 t.cpus) ∧
      (((∃ g, (decide_and_act 85 50 hw t).2.2 = .offlined g) ∨
          (decide_and_act 85 50 hw t).2.2 = .atMinimum) ↔ avg_c0 t.cpus < 50) ∧
      ((decide_and_act 85 50 hw t).2.2 = .noAction ↔
        50 ≤ avg_c0 t.cpus ∧ avg_c0 t.cpus ≤ 85) := by
    by_cases h1 : (85 : ℚ) < avg_c0 t.cpus
    · have hd : (decide_and_act 85 50 hw t).2.2 =
          (match select_cpu_to_online t with
           | some g => Decision.onlined g
           | none => Decision.atMaximum) := by
        simp only [decide_and_act, hcast85, hcast50, h1, if_true]
        cases select_cpu_to_online t <;> rfl
      have hcls : (∃ g, (decide_and_act 85 50 hw t).2.2 = .onlined g) ∨
          (decide_and_act 85 50 hw t).2.2 = .atMaximum := by
        rw [hd]
        cases select_cpu_to_online t with
        | none => exact Or.inr rfl
        | some g => exact Or.inl ⟨g, rfl⟩
      have h2 : ¬ avg_c0 t.cpus < 50 := by linarith
      refine ⟨iff_of_true hcls h1, iff_of_false ?_ h2, iff_of_false ?_ ?_⟩
      · rw [hd]
        cases select_cpu_to_online t <;> simp
      · rw [hd]
        cases select_cpu_to_online t <;> simp
      · rintro ⟨-, hle⟩; linarith
    · by_cases h2 : avg_c0 t.cpus < (50 : ℚ)
      · have hd : (decide_and_act 85 50 hw t).2.2 =
            (match select_cpu_to_offline t with
             | some g => Decision.offlined g
             | none => Decision.atMinimum) := by
          simp only [decide_and_act, hcast85, hcast50, h1, h2, if_false, if_true]
          cases select_cpu_to_offline t <;> rfl
        have hcls : (∃ g, (decide_and_act 85 50 hw t).2.2 = .offlined g) ∨
            (decide_and_act 85 50 hw t).2.2 = .atMinimum := by
          rw [hd]
          cases select_cpu_to_offline t with
          | none => exact Or.inr rfl
          | some g => exact Or.inl ⟨g, rfl⟩
        refine ⟨iff_of_false ?_ h1, iff_of_true hcls h2, iff_of_false ?_ ?_⟩
        · rw [hd]
          cases select_cpu_to_offline t <;> simp
        · rw [hd]
          cases select_cpu_to_offline t <;> simp
        · rintro ⟨hge, -⟩; linarith
      · have hd : (decide_and_act 85 50 hw t).2.2 = .noAction := by
          simp only [decide_and_act, hcast85, hcast50, h1, h2, if_false]
        refine ⟨iff_of_false ?_ h1, iff_of_false ?_ h2,
          iff_of_true hd ⟨le_of_not_lt h2, le_of_not_lt h1⟩⟩
        · rw [hd]; simp
        · rw [hd]; simp
  refine ⟨?_, ?_, ?_, ?_, hOn, hOff, hNo⟩
  · intro h; exact hNo.mpr (by rw [h]; norm_num)
  · intro h; exact hNo.mpr (by rw [h]; norm_num)
  · intro h; exact hOff.mpr (by rw [h]; norm_num)
  · intro h; exact hOn.mpr (by rw [h]; norm_num)

/-- Witness for C4: a concrete aggregate of 49.9 (one online CPU at
c0 = 499/10) enters the offline-selection branch. -/
theorem hysteresis_strict_witness :
    (∃ g, (decide_and_act 85 50 exHwOk (exTopo1 (499/10))).2.2 = .offlined g) ∨
      (decide_and_act 85 50 exHwOk (exTopo1 (499/10))).2.2 = .atMinimum :=
  (hysteresis_strict exHwOk (exTopo1 (499/10))).2.2.1
    (by norm_num [avg_c0, exTopo1, exCpu, List.filter])

/-! ### Saturating idle delta -/

theorem ratClamp_bounds (x lo hi : ℚ) (h : lo ≤ hi) :
    lo ≤ ratClamp x lo hi ∧ ratClamp x lo hi ≤ hi := by
  unfold ratClamp
  split_ifs with h1 h2
  · exact ⟨le_refl _, h⟩
  · exact ⟨h, le_refl _⟩
  · exact ⟨le_of_not_lt h1, le_of_not_lt h2⟩

/-- C8: when the idle counters were read successfully, `update_c0_single`
succeeds, stores the current reading as the new baseline, and yields a
percentage clamped to [0, 100]; when the current reading is below the
stored baseline the saturating delta is 0 and the percentage is exactly
100. -/
theorem saturating_idle_delta (hw : Hw) (interval : Nat) (cpu : CpuInfo)
    (total : Nat) (_hpos : 0 < interval)
    (hread : total_idle_time hw cpu.id cpu.idle_states = .ok total) :
    ∃ cpu', update_c0_single hw interval cpu = .ok cpu' ∧
      cpu'.last_total_idle_time = total ∧
      0 ≤ cpu'.c0_percentage ∧ cpu'.c0_percentage ≤ 100 ∧
      (total < cpu.last_total_idle_time →
        total - cpu.last_total_idle_time = 0 ∧ cpu'.c0_percentage = 100) := by
  refine ⟨_, by unfold update_c0_single; rw [hread], rfl, ?_, ?_, ?_⟩
  · exact (ratClamp_bounds _ 0 100 (by norm_num)).1
  · exact (ratClamp_bounds _ 0 100 (by norm_num)).2
  · intro hlt
    have h0 : total - cpu.last_total_idle_time = 0 :=
      Nat.sub_eq_zero_of_le (le_of_lt hlt)
    refine ⟨h0, ?_⟩
    show ratClamp (100 * (1 - ((total - cpu.last_total_idle_time : ℕ) : ℚ) /
        (interval : ℚ))) 0 100 = 100
    rw [h0]
    norm_num [ratClamp]

/-- Witness for C8: baseline 1000, current reading 700 (counter reset):
delta saturates to 0 and the stored percentage is exactly 100. -/
theorem saturating_idle_delta_witness :
    ∃ cpu', update_c0_single exHwOk 1000000 (exCpu 2 [2] true 1000 0 ["state0"]) = .ok cpu' ∧
      cpu'.last_total_idle_time = 700 ∧
      0 ≤ cpu'.c0_percentage ∧ cpu'.c0_percentage ≤ 100 ∧
      (700 < (exCpu 2 [2] true 1000 0 ["state0"]).last_total_idle_time →
        700 - (exCpu 2 [2] true 1000 0 ["state0"]).last_total_idle_time = 0 ∧
          cpu'.c0_percentage = 100) :=
  saturating_idle_delta exHwOk 1000000 (exCpu 2 [2] true 1000 0 ["state0"]) 700
    (by norm_num) (by rfl)

/-! ### The offline selection can name the boot CPU -/

/-- Three CPUs, all online; the highest-id one (CPU 2) reports CPU 0 as a
thread sibling. -/
def exTopo9 : SystemTopology :=
  { cpus := [exCpu 0 [0, 2] true 0 0 [], exCpu 1 [1] true 0 0 [],
             exCpu 2 [0, 2] true 0 0 []],
    sockets := [(0, [0, 1, 2])], cpu0_socket := some 0 }

/-- C9: the offline selection does not exclude the boot CPU from the
returned group: on `exTopo9` (two non-boot CPUs online, the highest-id one
listing CPU 0 among its siblings) it returns a group containing id 0; the
boot CPU is protected only by the executor, whose write trace for that very
group never touches CPU 0 and which leaves CPU 0 online. -/
theorem select_offline_includes_boot_cpu :
    2 ≤ (exTopo9.cpus.filter (fun c => c.online && c.id != 0)).length ∧
    select_cpu_to_offline exTopo9 = some [0, 2] ∧
    (0 : Nat) ∈ [0, 2] ∧
    (offline_cpu_group exHwOk exTopo9 [0, 2]).2.1 = [(2, false)] ∧
    boot_online (offline_cpu_group exHwOk exTopo9 [0, 2]).1 := by
  refine ⟨by decide, by decide, by decide, by decide, ?_⟩
  unfold boot_online
  decide

/-! ### Discovery -/

theorem insertCpu_map_id (cpus : List CpuInfo) (c : CpuInfo) :
    (insertCpu cpus c).map (fun d => d.id) =
      (if cpus.any (fun d => d.id == c.id) then cpus.map (fun d => d.id)
       else cpus.map (fun d => d.id) ++ [c.id]) := by
  unfold insertCpu
  split_ifs with h
  · rw [List.map_map]
    refine List.map_congr_left (fun d _ => ?_)
    by_cases hd : d.id = c.id
    · simp [hd]
    · simp [hd]
  · simp

theorem insertCpu_mem_id (cpus : List CpuInfo) (c : CpuInfo) (id : Nat) :
    id ∈ (insertCpu cpus c).map (fun d => d.id) ↔
      id ∈ cpus.map (fun d => d.id) ∨ id = c.id := by
  rw [insertCpu_map_id]
  split_ifs with h
  · constructor
    · exact Or.inl
    · rintro (hm | rfl)
      · exact hm
      · rcases List.any_eq_true.mp h with ⟨d, hd, hdc⟩
        exact List.mem_map.mpr ⟨d, hd, eq_of_beq hdc⟩
  · simp

theorem insertCpu_nodup_id (cpus : List CpuInfo) (c : CpuInfo)
    (h : (cpus.map (fun d => d.id)).Nodup) :
    ((insertCpu cpus c).map (fun d => d.id)).Nodup := by
  rw [insertCpu_map_id]
  split_ifs with hany
  · exact h
  · refine List.nodup_append.mpr ⟨h, List.nodup_singleton _, ?_⟩
    intro id hid hid1
    rcases List.mem_map.mp hid with ⟨d, hd, rfl⟩
    have hdc := List.mem_singleton.mp hid1
    have : cpus.any (fun d => d.id == c.id) = true :=
      List.any_eq_true.mpr ⟨d, hd, by simp [hdc]⟩
    exact hany this

theorem discover_fold_mem (hw : Hw) (entries : List String) :
    ∀ st : DiscoverState, ∀ id : Nat,
      id ∈ (entries.foldl (process_cpu hw) st).2.1.map (fun d => d.id) ↔
        id ∈ st.2.1.map (fun d => d.id) ∨
          ∃ name ∈ entries, cpu_id_of_entry name = some id := by
  induction entries with
  | nil => simp
  | cons name rest ih =>
    intro st id
    rw [List.foldl_cons, ih]
    have hstep : id ∈ (process_cpu hw st name).2.1.map (fun d => d.id) ↔
        id ∈ st.2.1.map (fun d => d.id) ∨ cpu_id_of_entry name = some id := by
      unfold process_cpu
      cases he : cpu_id_of_entry name with
      | none => simp [he]
      | some id0 =>
        simp only
        rw [insertCpu_mem_id]
        simp [he, eq_comm]
    rw [hstep]
    constructor
    · rintro ((hA | hB) | hC)
      · exact Or.inl hA
      · exact Or.inr ⟨name, List.mem_cons_self .., hB⟩
      · rcases hC with ⟨n, hn, hpn⟩
        exact Or.inr ⟨n, List.mem_cons_of_mem _ hn, hpn⟩
    · rintro (hA | ⟨n, hn, hpn⟩)
      · exact Or.inl (Or.inl hA)
      · rcases List.mem_cons.mp hn with rfl | hn'
        · exact Or.inl (Or.inr hpn)
        · exact Or.inr ⟨n, hn', hpn⟩

theorem discover_fold_nodup (hw : Hw) (entries : List String) :
    ∀ st : DiscoverState, (st.2.1.map (fun d => d.id)).Nodup →
      ((entries.foldl (process_cpu hw) st).2.1.map (fun d => d.id)).Nodup := by
  induction entries with
  | nil => intro st h; simpa using h
  | cons name rest ih =>
    intro st h
    rw [List.foldl_cons]
    refine ih _ ?_
    unfold process_cpu
    cases he : cpu_id_of_entry name with
    | none => exact h
    | some id0 => exact insertCpu_nodup_id _ _ h

/-- C7 counterexample: an enumeration that is readable but yields zero CPUs
makes `SystemTopology::new` return `Ok` with an empty topology, not an
error. -/
theorem discovery_zero_cpus_cex :
    topology_new { exHwOk with dirEntries := .ok [] } =
        .ok { cpus := [], sockets := [], cpu0_socket := none } ∧
    ∀ e, topology_new { exHwOk with dirEntries := .ok [] } ≠ .error e := by
  constructor
  · rfl
  · intro e h
    cases h

/-- C7 amended: discovery fails exactly when the hardware enumeration
source is unreadable; otherwise (zero CPUs included) it returns a topology
holding exactly one record per enumerated cpu id. -/
theorem discovery_error_iff_unreadable (hw : Hw) :
    ((∃ e, topology_new hw = .error e) ↔ ∃ e, hw.dirEntries = .error e) ∧
    (∀ entries, hw.dirEntries = .ok entries →
      ∃ t, topology_new hw = .ok t ∧
        (∀ id, id ∈ t.cpus.map (fun c => c.id) ↔
          ∃ name ∈ entries, cpu_id_of_entry name = some id) ∧
        (t.cpus.map (fun c => c.id)).Nodup) := by
  unfold topology_new
  cases hde : hw.dirEntries with
  | error e =>
    refine ⟨by simp, ?_⟩
    intro entries h
    cases h
  | ok entries =>
    refine ⟨by simp, ?_⟩
    intro entries2 h
    injection h with h2
    subst h2
    refine ⟨_, rfl, ?_, ?_⟩
    · intro id
      rw [discover_fold_mem]
      simp
    · exact discover_fold_nodup hw entries (none, [], []) (by simp)

/-- Witness for C7 at a concrete four-entry enumeration. -/
theorem discovery_error_iff_unreadable_witness :
    ∃ t, topology_new exHwOk = .ok t ∧
      (∀ id, id ∈ t.cpus.map (fun c => c.id) ↔
        ∃ name ∈ ["cpu0", "cpu1", "cpu2", "cpu3"],
          cpu_id_of_entry name = some id) ∧
      (t.cpus.map (fun c => c.id)).Nodup :=
  (discovery_error_iff_unreadable exHwOk).2 ["cpu0", "cpu1", "cpu2", "cpu3"] rfl

/-! ### Transition batch behaviour on failure -/

/-- Hardware on which the online-control write for CPU 1 fails while every
other CPU's write succeeds. -/
def exHwWriteFail1 : Hw :=
  { exHwOk with writeOnline := fun i _ => i != 1 }

/-- C5 counterexample: on a group `[1, 2]`, the failing write for CPU 1
returns the batch early with `Err`: CPU 2 is never attempted (the write
trace stops at CPU 1) and the topology is untouched, even though CPU 2's
control exists and its write would have succeeded. -/
theorem batch_write_failure_aborts_cex :
    (offline_cpu_group exHwWriteFail1 exTopo4 [1, 2]).2.2 = false ∧
    (offline_cpu_group exHwWriteFail1 exTopo4 [1, 2]).2.1 = [(1, false)] ∧
    (offline_cpu_group exHwWriteFail1 exTopo4 [1, 2]).1 = exTopo4 ∧
    exHwWriteFail1.onlineFileExists 2 = true ∧
    exHwWriteFail1.writeOnline 2 false = true := by
  refine ⟨rfl, rfl, ?_, rfl, rfl⟩
  decide

/-- C5 amended: per-CPU tolerance holds only for the absent-control case —
a CPU whose `online` file is missing is skipped and the rest of the group
is still processed — while a failing hardware write aborts the batch at
that CPU with an error, leaving the topology and all remaining ids
untouched.  (The caller discards the batch's `io::Result`, so the control
loop itself continues.) -/
theorem transition_batch_amended (hw : Hw) (t : SystemTopology)
    (id : Nat) (rest : List Nat) (hid : id ≠ 0) :
    (hw.onlineFileExists id = false →
      offline_cpu_group hw t (id :: rest) = offline_cpu_group hw t rest ∧
      online_cpu_group hw t (id :: rest) = online_cpu_group hw t rest) ∧
    (hw.onlineFileExists id = true → hw.writeOnline id false = false →
      offline_cpu_group hw t (id :: rest) = (t, [(id, false)], false)) ∧
    (hw.onlineFileExists id = true → hw.writeOnline id true = false →
      online_cpu_group hw t (id :: rest) = (t, [(id, true)], false)) := by
  refine ⟨fun hex => ⟨?_, ?_⟩, fun hex hwr => ?_, fun hex hwr => ?_⟩
  · simp [offline_cpu_group, offline_cpus_go, hid, hex]
  · simp [online_cpu_group, online_cpus_go, hid, hex]
  · simp [offline_cpu_group, offline_cpus_go, hid, hex, hwr]
  · simp [online_cpu_group, online_cpus_go, hid, hex, hwr]

/-- Witness for C5 (amended) at CPU 1 with the failing-write hardware. -/
theorem transition_batch_amended_witness :
    (exHwWriteFail1.onlineFileExists 1 = false →
      offline_cpu_group exHwWriteFail1 exTopo4 (1 :: [2]) =
          offline_cpu_group exHwWriteFail1 exTopo4 [2] ∧
      online_cpu_group exHwWriteFail1 exTopo4 (1 :: [2]) =
          online_cpu_group exHwWriteFail1 exTopo4 [2]) ∧
    (exHwWriteFail1.onlineFileExists 1 = true →
      exHwWriteFail1.writeOnline 1 false = false →
      offline_cpu_group exHwWriteFail1 exTopo4 (1 :: [2]) =
          (exTopo4, [(1, false)], false)) ∧
    (exHwWriteFail1.onlineFileExists 1 = true →
      exHwWriteFail1.writeOnline 1 true = false →
      online_cpu_group exHwWriteFail1 exTopo4 (1 :: [2]) =
          (exTopo4, [(1, true)], false)) :=
  transition_batch_amended exHwWriteFail1 exTopo4 1 [2] (by decide)

/-! ### Sampling failure behaviour -/

/-- Hardware on which reading CPU 0's idle-time counter fails while every
other CPU's read succeeds. -/
def exHwReadFail0 : Hw :=
  { exHwOk with idleTimeFile := fun i _ => if i = 0 then .error () else .ok 700 }

/-- A two-CPU topology with real idle-state counters. -/
def exTopoSample : SystemTopology :=
  { cpus := [exCpu 0 [0] true 0 0 ["state0"], exCpu 1 [1] true 0 0 ["state0"]],
    sockets := [(0, [0, 1])], cpu0_socket := some 0 }

/-- C6 counterexample: a failed idle-time read on CPU 0 makes
`update_c0_percentages` return `Err` with no CPU updated — CPU 1 is not
sampled at all even though its own read would succeed — and the error
propagates out of the `cpu_manager` cycle instead of the CPU being dropped
from the average. -/
theorem sampling_failure_aborts_cex :
    (update_c0_percentages exHwReadFail0 1000000 exTopoSample.cpus).2 = false ∧
    (update_c0_percentages exHwReadFail0 1000000 exTopoSample.cpus).1 =
        exTopoSample.cpus ∧
    (∃ c, update_c0_single exHwReadFail0 1000000
        (exCpu 1 [1] true 0 0 ["state0"]) = .ok c) ∧
    (cpu_manager_cycle 85 50 exHwReadFail0 1000000 exTopoSample).2.2 =
        .error () :=
  ⟨rfl, rfl, ⟨_, rfl⟩, rfl⟩

/-- C6 amended: a failure while reading one online CPU's idle counters
makes `update_c0_percentages` return the error immediately — the failing
CPU and every CPU after it in iteration order are left untouched — and a
failed sampling pass makes `cpu_manager` propagate the error out of the
control loop (no decision is taken and the loop body returns `Err`). -/
theorem sampling_failure_propagates (hw : Hw) (interval : Nat) :
    (∀ cpu rest, cpu.online = true →
      update_c0_single hw interval cpu = .error () →
      update_c0_percentages hw interval (cpu :: rest) = (cpu :: rest, false)) ∧
    (∀ upper lower t, (update_c0_percentages hw interval t.cpus).2 = false →
      cpu_manager_cycle upper lower hw interval t =
        ({ t with cpus := (update_c0_percentages hw interval t.cpus).1 },
          [], .error ())) := by
  constructor
  · intro cpu rest honl hfail
    simp [update_c0_percentages, honl, hfail]
  · intro upper lower t hflag
    simp [cpu_manager_cycle, hflag]

/-- Witness for C6 (amended): the failing read on CPU 0 stops the sampling
pass with both CPUs untouched. -/
theorem sampling_failure_propagates_witness :
    update_c0_percentages exHwReadFail0 1000000
        (exCpu 0 [0] true 0 0 ["state0"] :: [exCpu 1 [1] true 0 0 ["state0"]]) =
      (exCpu 0 [0] true 0 0 ["state0"] :: [exCpu 1 [1] true 0 0 ["state0"]],
        false) :=
  (sampling_failure_propagates exHwReadFail0 1000000).1
    (exCpu 0 [0] true 0 0 ["state0"]) [exCpu 1 [1] true 0 0 ["state0"]]
    rfl rfl

/-! ### Frame property of the executor -/

/-- Every field of a CPU record except possibly `online` is unchanged. -/
def same_except_online (c c' : CpuInfo) : Prop :=
  c'.id = c.id ∧ c'.core_id = c.core_id ∧ c'.socket_id = c.socket_id ∧
  c'.thread_siblings = c.thread_siblings ∧
  c'.c0_percentage = c.c0_percentage ∧
  c'.last_total_idle_time = c.last_total_idle_time ∧
  c'.idle_states = c.idle_states

/-- Per-record frame condition for a group transition towards `target`:
only `online` may change, and only for a non-boot CPU listed in `ids`
whose control exists and whose hardware write succeeded. -/
def frame_ok (hw : Hw) (target : Bool) (ids : List Nat) (c c' : CpuInfo) :
    Prop :=
  same_except_online c c' ∧
  (c'.online ≠ c.online →
    c'.online = target ∧ c.id ∈ ids ∧ c.id ≠ 0 ∧
    hw.onlineFileExists c.id = true ∧ hw.writeOnline c.id target = true)

theorem frame_ok_refl (hw : Hw) (target : Bool) (ids : List Nat)
    (c : CpuInfo) : frame_ok hw target ids c c :=
  ⟨⟨rfl, rfl, rfl, rfl, rfl, rfl, rfl⟩, fun h => absurd rfl h⟩

theorem forall₂_frame_refl (hw : Hw) (target : Bool) (ids : List Nat)
    (cpus : List CpuInfo) :
    List.Forall₂ (frame_ok hw target ids) cpus cpus :=
  List.forall₂_same.mpr (fun c _ => frame_ok_refl hw target ids c)

theorem frame_ok_mono (hw : Hw) (target : Bool) {ids ids' : List Nat}
    (hsub : ∀ i ∈ ids, i ∈ ids') {c c' : CpuInfo}
    (h : frame_ok hw target ids c c') : frame_ok hw target ids' c c' :=
  ⟨h.1, fun hflip =>
    let ⟨ht, hmem, hne, hex, hwr⟩ := h.2 hflip
    ⟨ht, hsub _ hmem, hne, hex, hwr⟩⟩

theorem forall₂_frame_setOnline (hw : Hw) (target : Bool) (ids : List Nat)
    (id : Nat) (hmem : id ∈ ids) (hid : id ≠ 0)
    (hex : hw.onlineFileExists id = true)
    (hwr : hw.writeOnline id target = true) (cpus : List CpuInfo) :
    List.Forall₂ (frame_ok hw target ids) cpus (setOnline cpus id target) := by
  unfold setOnline
  rw [List.forall₂_map_right_iff, List.forall₂_same]
  intro c _
  show frame_ok hw target ids c
    (if c.id == id then { c with online := target } else c)
  cases hbeq : c.id == id with
  | true =>
    have hcid : c.id = id := eq_of_beq hbeq
    rw [if_pos rfl]
    refine ⟨⟨rfl, rfl, rfl, rfl, rfl, rfl, rfl⟩,
      fun _ => ⟨rfl, ?_, ?_, ?_, ?_⟩⟩
    · rw [hcid]; exact hmem
    · rw [hcid]; exact hid
    · rw [hcid]; exact hex
    · rw [hcid]; exact hwr
  | false =>
    rw [if_neg (by simp)]
    exact frame_ok_refl hw target ids c

theorem forall₂_compose {α : Type} {R S T : α → α → Prop}
    (h : ∀ a b c, R a b → S b c → T a c) :
    ∀ {l1 l2 l3 : List α}, List.Forall₂ R l1 l2 → List.Forall₂ S l2 l3 →
      List.Forall₂ T l1 l3 := by
  intro l1 l2 l3 h12
  induction h12 generalizing l3 with
  | nil =>
    intro h23
    cases h23
    exact .nil
  | cons hab h12' ih =>
    intro h23
    cases h23 with
    | cons hbc h23' => exact .cons (h _ _ _ hab hbc) (ih h23')

theorem same_except_online_trans {a b c : CpuInfo}
    (h1 : same_except_online a b) (h2 : same_except_online b c) :
    same_except_online a c :=
  ⟨h2.1.trans h1.1, h2.2.1.trans h1.2.1, h2.2.2.1.trans h1.2.2.1,
   h2.2.2.2.1.trans h1.2.2.2.1, h2.2.2.2.2.1.trans h1.2.2.2.2.1,
   h2.2.2.2.2.2.1.trans h1.2.2.2.2.2.1, h2.2.2.2.2.2.2.trans h1.2.2.2.2.2.2⟩

theorem frame_ok_compose (hw : Hw) (target : Bool) (id : Nat)
    (rest : List Nat) (a b c : CpuInfo)
    (hab : frame_ok hw target [id] a b)
    (hbc : frame_ok hw target rest b c) :
    frame_ok hw target (id :: rest) a c := by
  obtain ⟨sab, fab⟩ := hab
  obtain ⟨sbc, fbc⟩ := hbc
  refine ⟨same_except_online_trans sab sbc, ?_⟩
  intro hflip
  by_cases h1 : b.online = a.online
  · have h2 : c.online ≠ b.online := by rw [h1]; exact hflip
    obtain ⟨ht, hmem, hne, hex, hwr⟩ := fbc h2
    have hbid : b.id = a.id := sab.1
    rw [hbid] at hmem hne hex hwr
    exact ⟨ht, List.mem_cons_of_mem _ hmem, hne, hex, hwr⟩
  · obtain ⟨ht1, hmem1, hne1, hex1, hwr1⟩ := fab h1
    have hmem1' : a.id = id := List.mem_singleton.mp hmem1
    by_cases h2 : c.online = b.online
    · rw [h2]
      exact ⟨ht1, hmem1' ▸ List.mem_cons_self .., hne1, hex1, hwr1⟩
    · obtain ⟨ht2, -, -, -, -⟩ := fbc h2
      exact absurd (ht2.trans ht1.symm) h2

theorem offline_cpus_go_frame (hw : Hw) :
    ∀ (ids : List Nat) (cpus : List CpuInfo),
      List.Forall₂ (frame_ok hw false ids) cpus
        (offline_cpus_go hw cpus ids).1 := by
  intro ids
  induction ids with
  | nil =>
    intro cpus
    exact forall₂_frame_refl hw false [] cpus
  | cons id rest ih =>
    intro cpus
    have hmono : ∀ i ∈ rest, i ∈ id :: rest :=
      fun i hi => List.mem_cons_of_mem _ hi
    simp only [offline_cpus_go]
    by_cases h0 : id = 0
    · rw [if_pos h0]
      exact (ih cpus).imp (fun a b => frame_ok_mono hw false hmono)
    · rw [if_neg h0]
      by_cases hex : hw.onlineFileExists id = true
      · rw [if_pos hex]
        by_cases hwr : hw.writeOnline id false = true
        · rw [if_pos hwr]
          exact forall₂_compose (frame_ok_compose hw false id rest)
            (forall₂_frame_setOnline hw false [id] id
              (List.mem_singleton_self id) h0 hex hwr cpus)
            ((ih (setOnline cpus id false)).imp (fun a b h => h))
        · rw [if_neg hwr]
          exact forall₂_frame_refl hw false (id :: rest) cpus
      · rw [if_neg hex]
        exact (ih cpus).imp (fun a b => frame_ok_mono hw false hmono)

theorem online_cpus_go_frame (hw : Hw) :
    ∀ (ids : List Nat) (cpus : List CpuInfo),
      List.Forall₂ (frame_ok hw true ids) cpus
        (online_cpus_go hw cpus ids).1 := by
  intro ids
  induction ids with
  | nil =>
    intro cpus
    exact forall₂_frame_refl hw true [] cpus
  | cons id rest ih =>
    intro cpus
    have hmono : ∀ i ∈ rest, i ∈ id :: rest :=
      fun i hi => List.mem_cons_of_mem _ hi
    simp only [online_cpus_go]
    by_cases h0 : id = 0
    · rw [if_pos h0]
      exact (ih cpus).imp (fun a b => frame_ok_mono hw true hmono)
    · rw [if_neg h0]
      by_cases hex : hw.onlineFileExists id = true
      · rw [if_pos hex]
        by_cases hwr : hw.writeOnline id true = true
        · rw [if_pos hwr]
          exact forall₂_compose (frame_ok_compose hw true id rest)
            (forall₂_frame_setOnline hw true [id] id
              (List.mem_singleton_self id) h0 hex hwr cpus)
            ((ih (setOnline cpus id true)).imp (fun a b h => h))
        · rw [if_neg hwr]
          exact forall₂_frame_refl hw true (id :: rest) cpus
      · rw [if_neg hex]
        exact (ih cpus).imp (fun a b => frame_ok_mono hw true hmono)

/-- C10: frame property of the executor: a group transition leaves the
sockets map and `cpu0_socket` unchanged, and relates the cpu list pointwise
to the original — every field other than `online` is unchanged, and an
`online` flip happens only for a non-boot CPU listed in the group whose
control file exists and whose hardware write succeeded. -/
theorem transition_frame (hw : Hw) (t : SystemTopology) (ids : List Nat) :
    ((offline_cpu_group hw t ids).1.sockets = t.sockets ∧
     (offline_cpu_group hw t ids).1.cpu0_socket = t.cpu0_socket ∧
     List.Forall₂ (frame_ok hw false ids) t.cpus
       (offline_cpu_group hw t ids).1.cpus) ∧
    ((online_cpu_group hw t ids).1.sockets = t.sockets ∧
     (online_cpu_group hw t ids).1.cpu0_socket = t.cpu0_socket ∧
     List.Forall₂ (frame_ok hw true ids) t.cpus
       (online_cpu_group hw t ids).1.cpus) :=
  ⟨⟨rfl, rfl, offline_cpus_go_frame hw ids t.cpus⟩,
   ⟨rfl, rfl, online_cpus_go_frame hw ids t.cpus⟩⟩

/-- Witness for C10 at the concrete four-CPU topology offlining {2,3}. -/
theorem transition_frame_witness :
    (offline_cpu_group exHwOk exTopo4 [2, 3]).1.sockets = exTopo4.sockets ∧
    (offline_cpu_group exHwOk exTopo4 [2, 3]).1.cpu0_socket =
        exTopo4.cpu0_socket ∧
    List.Forall₂ (frame_ok exHwOk false [2, 3]) exTopo4.cpus
      (offline_cpu_group exHwOk exTopo4 [2, 3]).1.cpus :=
  (transition_frame exHwOk exTopo4 [2, 3]).1

/-! ### Boot-CPU invariant -/

theorem offline_cpus_go_writes (hw : Hw) :
    ∀ (ids : List Nat) (cpus : List CpuInfo),
      ∀ w ∈ (offline_cpus_go hw cpus ids).2.1, w.1 ≠ 0 ∧ w.2 = false := by
  intro ids
  induction ids with
  | nil =>
    intro cpus w hmem
    simp [offline_cpus_go] at hmem
  | cons id rest ih =>
    intro cpus w hmem
    simp only [offline_cpus_go] at hmem
    by_cases h0 : id = 0
    · rw [if_pos h0] at hmem
      exact ih cpus w hmem
    · rw [if_neg h0] at hmem
      by_cases hex : hw.onlineFileExists id = true
      · rw [if_pos hex] at hmem
        by_cases hwr : hw.writeOnline id false = true
        · rw [if_pos hwr] at hmem
          have hmem' : w ∈ (id, false) ::
              (offline_cpus_go hw (setOnline cpus id false) rest).2.1 := hmem
          rcases List.mem_cons.mp hmem' with rfl | hmem2
          · exact ⟨h0, rfl⟩
          · exact ih (setOnline cpus id false) w hmem2
        · rw [if_neg hwr] at hmem
          have hmem' : w ∈ [(id, false)] := hmem
          rcases List.mem_singleton.mp hmem' with rfl
          exact ⟨h0, rfl⟩
      · rw [if_neg hex] at hmem
        exact ih cpus w hmem

theorem online_cpus_go_writes (hw : Hw) :
    ∀ (ids : List Nat) (cpus : List CpuInfo),
      ∀ w ∈ (online_cpus_go hw cpus ids).2.1, w.1 ≠ 0 ∧ w.2 = true := by
  intro ids
  induction ids with
  | nil =>
    intro cpus w hmem
    simp [online_cpus_go] at hmem
  | cons id rest ih =>
    intro cpus w hmem
    simp only [online_cpus_go] at hmem
    by_cases h0 : id = 0
    · rw [if_pos h0] at hmem
      exact ih cpus w hmem
    · rw [if_neg h0] at hmem
      by_cases hex : hw.onlineFileExists id = true
      · rw [if_pos hex] at hmem
        by_cases hwr : hw.writeOnline id true = true
        · rw [if_pos hwr] at hmem
          have hmem' : w ∈ (id, true) ::
              (online_cpus_go hw (setOnline cpus id true) rest).2.1 := hmem
          rcases List.mem_cons.mp hmem' with rfl | hmem2
          · exact ⟨h0, rfl⟩
          · exact ih (setOnline cpus id true) w hmem2
        · rw [if_neg hwr] at hmem
          have hmem' : w ∈ [(id, true)] := hmem
          rcases List.mem_singleton.mp hmem' with rfl
          exact ⟨h0, rfl⟩
      · rw [if_neg hex] at hmem
        exact ih cpus w hmem

theorem online_all_go_writes (hw : Hw) :
    ∀ entries : List String, ∀ w ∈ (online_all_go hw entries).1, w.1 ≠ 0 ∧ w.2 = true := by
  intro entries
  induction entries with
  | nil =>
    intro w hmem
    simp [online_all_go] at hmem
  | cons name rest ih =>
    intro w hmem
    simp only [online_all_go] at hmem
    split at hmem
    · exact ih w hmem
    · rename_i id hent
      by_cases h0 : id = 0
      · rw [if_pos h0] at hmem
        exact ih w hmem
      · rw [if_neg h0] at hmem
        by_cases hex : hw.onlineFileExists id = true
        · rw [if_pos hex] at hmem
          by_cases hwr : hw.writeOnline id true = true
          · rw [if_pos hwr] at hmem
            have hmem' : w ∈ (id, true) :: (online_all_go hw rest).1 := hmem
            rcases List.mem_cons.mp hmem' with rfl | hmem2
            · exact ⟨h0, rfl⟩
            · exact ih w hmem2
          · rw [if_neg hwr] at hmem
            have hmem' : w ∈ [(id, true)] := hmem
            rcases List.mem_singleton.mp hmem' with rfl
            exact ⟨h0, rfl⟩
        · rw [if_neg hex] at hmem
          exact ih w hmem

theorem forall₂_frame_boot (hw : Hw) (target : Bool) (ids : List Nat) :
    ∀ l l' : List CpuInfo, List.Forall₂ (frame_ok hw target ids) l l' →
      (∀ c ∈ l, c.id = 0 → c.online = true) →
      ∀ c ∈ l', c.id = 0 → c.online = true := by
  intro l
  induction l with
  | nil =>
    intro l' h hb
    cases h
    simp
  | cons a l ih =>
    intro l' h hb
    cases h with
    | cons hab htail =>
      rename_i b l2
      intro c hc h0
      rcases List.mem_cons.mp hc with rfl | hc2
      · obtain ⟨s, f⟩ := hab
        have ha0 : a.id = 0 := s.1 ▸ h0
        have haon : a.online = true := hb a (List.mem_cons_self ..) ha0
        by_cases hfl : c.online = a.online
        · rw [hfl, haon]
        · obtain ⟨-, -, hne, -, -⟩ := f hfl
          exact absurd ha0 hne
      · exact ih l2 htail (fun d hd => hb d (List.mem_cons_of_mem _ hd)) c hc2 h0

theorem update_c0_single_id_online (hw : Hw) (interval : Nat)
    (cpu cpu' : CpuInfo) (h : update_c0_single hw interval cpu = .ok cpu') :
    cpu'.id = cpu.id ∧ cpu'.online = cpu.online := by
  unfold update_c0_single at h
  cases ht : total_idle_time hw cpu.id cpu.idle_states with
  | error e =>
    rw [ht] at h
    cases h
  | ok total =>
    rw [ht] at h
    injection h with h2
    subst h2
    exact ⟨rfl, rfl⟩

theorem update_c0_percentages_boot (hw : Hw) (interval : Nat) :
    ∀ cpus : List CpuInfo,
      (∀ c ∈ cpus, c.id = 0 → c.online = true) →
      ∀ c ∈ (update_c0_percentages hw interval cpus).1,
        c.id = 0 → c.online = true := by
  intro cpus
  induction cpus with
  | nil =>
    intro hb c hc
    simp [update_c0_percentages] at hc
  | cons cpu rest ih =>
    intro hb c hc h0
    simp only [update_c0_percentages] at hc
    by_cases honl : cpu.online = true
    · rw [if_pos honl] at hc
      cases hup : update_c0_single hw interval cpu with
      | error e =>
        rw [hup] at hc
        have hc2 : c ∈ cpu :: rest := hc
        exact hb c hc2 h0
      | ok cpu' =>
        rw [hup] at hc
        have hc2 : c ∈ cpu' :: (update_c0_percentages hw interval rest).1 := hc
        rcases List.mem_cons.mp hc2 with rfl | hc3
        · obtain ⟨hid, honl2⟩ := update_c0_single_id_online hw interval cpu c hup
          rw [honl2]
          exact hb cpu (List.mem_cons_self ..) (hid ▸ h0)
        · exact ih (fun d hd => hb d (List.mem_cons_of_mem _ hd)) c hc3 h0
    · rw [if_neg honl] at hc
      have hc2 : c ∈ cpu :: (update_c0_percentages hw interval rest).1 := hc
      rcases List.mem_cons.mp hc2 with rfl | hc3
      · exact hb c (List.mem_cons_self ..) h0
      · exact ih (fun d hd => hb d (List.mem_cons_of_mem _ hd)) c hc3 h0

theorem decide_and_act_boot (upper lower : Nat) (hw : Hw) (t : SystemTopology)
    (hb : ∀ c ∈ t.cpus, c.id = 0 → c.online = true) :
    ∀ c ∈ (decide_and_act upper lower hw t).1.cpus,
      c.id = 0 → c.online = true := by
  simp only [decide_and_act]
  by_cases h1 : (upper : ℚ) < avg_c0 t.cpus
  · rw [if_pos h1]
    cases select_cpu_to_online t with
    | none => exact hb
    | some g =>
      exact forall₂_frame_boot hw true g t.cpus _
        (online_cpus_go_frame hw g t.cpus) hb
  · rw [if_neg h1]
    by_cases h2 : avg_c0 t.cpus < (lower : ℚ)
    · rw [if_pos h2]
      cases select_cpu_to_offline t with
      | none => exact hb
      | some g =>
        exact forall₂_frame_boot hw false g t.cpus _
          (offline_cpus_go_frame hw g t.cpus) hb
    · rw [if_neg h2]
      exact hb

theorem decide_and_act_writes (upper lower : Nat) (hw : Hw)
    (t : SystemTopology) :
    ∀ w ∈ (decide_and_act upper lower hw t).2.1, w.1 ≠ 0 := by
  simp only [decide_and_act]
  by_cases h1 : (upper : ℚ) < avg_c0 t.cpus
  · rw [if_pos h1]
    cases select_cpu_to_online t with
    | none =>
      intro w hmem
      simp at hmem
    | some g =>
      intro w hmem
      exact (online_cpus_go_writes hw g t.cpus w hmem).1
  · rw [if_neg h1]
    by_cases h2 : avg_c0 t.cpus < (lower : ℚ)
    · rw [if_pos h2]
      cases select_cpu_to_offline t with
      | none =>
        intro w hmem
        simp at hmem
      | some g =>
        intro w hmem
        exact (offline_cpus_go_writes hw g t.cpus w hmem).1
    · rw [if_neg h2]
      intro w hmem
      simp at hmem

theorem cpu_manager_cycle_boot (upper lower : Nat) (hw : Hw) (interval : Nat)
    (t : SystemTopology) (hb : ∀ c ∈ t.cpus, c.id = 0 → c.online = true) :
    ∀ c ∈ (cpu_manager_cycle upper lower hw interval t).1.cpus,
      c.id = 0 → c.online = true := by
  simp only [cpu_manager_cycle]
  by_cases hu : (update_c0_percentages hw interval t.cpus).2 = true
  · rw [if_pos hu]
    exact decide_and_act_boot upper lower hw _
      (update_c0_percentages_boot hw interval t.cpus hb)
  · rw [if_neg hu]
    exact update_c0_percentages_boot hw interval t.cpus hb

theorem cpu_manager_cycle_writes (upper lower : Nat) (hw : Hw)
    (interval : Nat) (t : SystemTopology) :
    ∀ w ∈ (cpu_manager_cycle upper lower hw interval t).2.1, w.1 ≠ 0 := by
  simp only [cpu_manager_cycle]
  by_cases hu : (update_c0_percentages hw interval t.cpus).2 = true
  · rw [if_pos hu]
    intro w hmem
    exact decide_and_act_writes upper lower hw _ w hmem
  · rw [if_neg hu]
    intro w hmem
    have hmem' : w ∈ ([] : List (Nat × Bool)) := hmem
    simp at hmem'

theorem insertCpu_boot (cpus : List CpuInfo) (c : CpuInfo)
    (hc : c.id = 0 → c.online = true)
    (hb : ∀ d ∈ cpus, d.id = 0 → d.online = true) :
    ∀ d ∈ insertCpu cpus c, d.id = 0 → d.online = true := by
  unfold insertCpu
  split_ifs with hany
  · intro d hd
    rcases List.mem_map.mp hd with ⟨d0, hd0, rfl⟩
    by_cases hkey : d0.id = c.id
    · rw [if_pos (by simpa using hkey)]
      exact hc
    · rw [if_neg (by simpa using hkey)]
      exact hb d0 hd0
  · intro d hd
    rcases List.mem_append.mp hd with hd1 | hd1
    · exact hb d hd1
    · rcases List.mem_singleton.mp hd1 with rfl
      exact hc

theorem discover_fold_boot (hw : Hw) (h0 : is_cpu_online hw 0 = true) :
    ∀ (entries : List String) (st : DiscoverState),
      (∀ d ∈ st.2.1, d.id = 0 → d.online = true) →
      ∀ d ∈ (entries.foldl (process_cpu hw) st).2.1, d.id = 0 → d.online = true := by
  intro entries
  induction entries with
  | nil => intro st hb; simpa using hb
  | cons name rest ih =>
    intro st hb
    rw [List.foldl_cons]
    refine ih _ ?_
    unfold process_cpu
    cases hent : cpu_id_of_entry name with
    | none => exact hb
    | some id =>
      refine insertCpu_boot _ _ (fun hid => ?_) hb
      simp only at hid
      rw [hid]
      exact h0

/-- C1: the boot-CPU invariant.  First conjunct: discovery yields a
boot-online topology whenever CPU 0's online indicator is absent (the boot
CPU's normal state, which `is_cpu_online` maps to `true`).  Second: every
state reachable from a state satisfying `boot_online` still satisfies it
(no operation ever sets the boot CPU's flag to false).  Remaining
conjuncts: no operation — group offline/online, `online_all_cpus`, or one
`cpu_manager` cycle — ever issues a hardware `write_online` request for
CPU 0 (in particular, never an offline request for it). -/
theorem boot_cpu_invariant :
    (∀ (hw : Hw) (t : SystemTopology), hw.onlineFileExists 0 = false →
      topology_new hw = .ok t → boot_online t) ∧
    (∀ t0 t : SystemTopology, boot_online t0 → Reachable t0 t → boot_online t) ∧
    (∀ (hw : Hw) (t : SystemTopology) (ids : List Nat),
      ∀ w ∈ (offline_cpu_group hw t ids).2.1, w.1 ≠ 0) ∧
    (∀ (hw : Hw) (t : SystemTopology) (ids : List Nat),
      ∀ w ∈ (online_cpu_group hw t ids).2.1, w.1 ≠ 0) ∧
    (∀ (hw : Hw) (entries : List String),
      ∀ w ∈ (online_all_go hw entries).1, w.1 ≠ 0) ∧
    (∀ (upper lower : Nat) (hw : Hw) (interval : Nat) (t : SystemTopology),
      ∀ w ∈ (cpu_manager_cycle upper lower hw interval t).2.1, w.1 ≠ 0) := by
  refine ⟨?_, ?_, ?_, ?_, ?_, ?_⟩
  · intro hw t hex hnew
    have honl : is_cpu_online hw 0 = true := by
      unfold is_cpu_online
      rw [hex]
      simp
    unfold topology_new at hnew
    cases hde : hw.dirEntries with
    | error e => rw [hde] at hnew; cases hnew
    | ok entries =>
      rw [hde] at hnew
      injection hnew with hnew2
      subst hnew2
      exact discover_fold_boot hw honl entries (none, [], []) (by simp)
  · intro t0 t hb hr
    induction hr with
    | refl => exact hb
    | offline hw ids hr2 ih =>
      exact forall₂_frame_boot hw false ids _ _
        (offline_cpus_go_frame hw ids _) ih
    | online hw ids hr2 ih =>
      exact forall₂_frame_boot hw true ids _ _
        (online_cpus_go_frame hw ids _) ih
    | sample hw interval hr2 ih =>
      exact update_c0_percentages_boot hw interval _ ih
    | cycle upper lower hw interval hr2 ih =>
      exact cpu_manager_cycle_boot upper lower hw interval _ ih
  · intro hw t ids w hmem
    exact (offline_cpus_go_writes hw ids t.cpus w hmem).1
  · intro hw t ids w hmem
    exact (online_cpus_go_writes hw ids t.cpus w hmem).1
  · intro hw entries w hmem
    exact (online_all_go_writes hw entries w hmem).1
  · intro upper lower hw interval t w hmem
    exact cpu_manager_cycle_writes upper lower hw interval t w hmem

/-- Witness for C1: the boot-online invariant after a concrete reachable
step (offlining the pair {2,3} from the all-online four-CPU topology). -/
theorem boot_cpu_invariant_witness :
    boot_online (offline_cpu_group exHwOk exTopo4 [2, 3]).1 :=
  boot_cpu_invariant.2.1 exTopo4 _ (by unfold boot_online; decide)
    (Reachable.offline exHwOk [2, 3] Reachable.refl)

end CpuOnOff
